import Mathlib

/-!
Shallow embedding of the ShiftCalendarTool pipeline: shift extraction
post-processing (validation filter), conflict reconciliation (half-open
interval overlap over parsed datetime instants), selection toggling, and
the calendar-write batch step.  Definitions are translated from the
TypeScript source (`src/App.tsx`, `src/services/geminiService.ts`, and the
unnamed source parts); JavaScript `Date` parsing of the local
`YYYY-MM-DDTHH:MM[:SS]` strings the code constructs is modelled as an
`Option Nat` instant (with `none` playing the role of `NaN`, whose
comparisons are always false).
-/

/-- JavaScript truthiness of a possibly-absent boolean field
(`undefined` and `false` are falsy). -/
def truthy : Option Bool → Bool
  | none => false
  | some b => b

/-- JavaScript truthiness of a possibly-absent string field
(`undefined` and the empty string are falsy). -/
def truthyStr : Option String → Bool
  | none => false
  | some s => !(s == "")

/-- JavaScript `String.prototype.trim`: strip leading and trailing
whitespace. -/
def jsTrim (s : String) : String :=
  ⟨((s.data.dropWhile Char.isWhitespace).reverse.dropWhile Char.isWhitespace).reverse⟩

/-- JavaScript `String.prototype.startsWith`. -/
def jsStartsWith (s p : String) : Bool :=
  p.data.isPrefixOf s.data

/-- JavaScript `<` on strings, character by character (code-unit
comparison; ties recurse on the tails). -/
def jsLtChars : List Char → List Char → Bool
  | _, [] => false
  | [], _ :: _ => true
  | x :: xs, y :: ys =>
      if x < y then true else if y < x then false else jsLtChars xs ys

/-- JavaScript `a < b` on strings. -/
def jsLtStr (a b : String) : Bool :=
  jsLtChars a.data b.data

/-- JavaScript `a < b` over numbers-or-NaN: any comparison with NaN is false. -/
def jsLtNum : Option Nat → Option Nat → Bool
  | some a, some b => a < b
  | _, _ => false

/-- JavaScript `a > b` over numbers-or-NaN: any comparison with NaN is false. -/
def jsGtNum (a b : Option Nat) : Bool := jsLtNum b a

/-- Numeric value of a decimal digit character, `none` otherwise. -/
def digitVal (c : Char) : Option Nat :=
  if c.isDigit then some (c.toNat - 48) else none

/-- Two-digit decimal number from two digit characters. -/
def twoDigits (a b : Char) : Option Nat := do
  let x ← digitVal a
  let y ← digitVal b
  pure (10 * x + y)

/-- Gregorian leap-year test. -/
def isLeap (y : Nat) : Bool :=
  y % 4 == 0 && (y % 100 != 0 || y % 400 == 0)

/-- Number of days in month `m` (1-12) of year `y`. -/
def daysInMonth (y m : Nat) : Nat :=
  if m == 2 then (if isLeap y then 29 else 28)
  else if m == 4 || m == 6 || m == 9 || m == 11 then 30
  else 31

/-- Days in the months of year `y` strictly before month `m`. -/
def daysBeforeMonth (y m : Nat) : Nat :=
  (List.range m).foldl (fun acc i => if 1 ≤ i then acc + daysInMonth y i else acc) 0

/-- Leap years strictly before year `y` (year 0 counts as a leap year). -/
def leapsBefore (y : Nat) : Nat :=
  (y + 3) / 4 - (y + 99) / 100 + (y + 399) / 400

/-- Day number of the civil date `y-m-d` counted from 0000-01-01. -/
def toDayNumber (y m d : Nat) : Nat :=
  365 * y + leapsBefore y + daysBeforeMonth y m + (d - 1)

/-- Monotone encoding of a wall-clock instant as seconds since 0000-01-01T00:00:00;
hour 24 carries into the next day exactly as the ES `Date` grammar does. -/
def toInstant (y m d h mi s : Nat) : Nat :=
  ((toDayNumber y m d * 24 + h) * 60 + mi) * 60 + s

/-- Range validation for the components of a `YYYY-MM-DDTHH:MM[:SS]` string,
mirroring ES `Date` parsing of the date-time format: months 1-12, days bounded
by the month length, and either a time below 24:00 or exactly 24:00:00. -/
def validComponents (y m d h mi s : Nat) : Bool :=
  1 ≤ m && m ≤ 12 && 1 ≤ d && d ≤ daysInMonth y m &&
    ((h ≤ 23 && mi ≤ 59 && s ≤ 59) || (h == 24 && mi == 0 && s == 0))

/-- Assemble a parsed instant from raw digit components, or `none` (NaN) when
any component is out of range. -/
def mkInstant (y m d h mi s : Nat) : Option Nat :=
  if validComponents y m d h mi s then some (toInstant y m d h mi s) else none

/-- JavaScript `new Date(str).getTime()` for the local date-time strings the
application constructs (`YYYY-MM-DDTHH:MM` with optional `:SS`): `some`
instant on success, `none` for `NaN` (invalid format or out-of-range
components). -/
def parseDateTime (str : String) : Option Nat :=
  match str.data with
  | [y1, y2, y3, y4, '-', m1, m2, '-', d1, d2, 'T', h1, h2, ':', n1, n2] => do
      let a ← twoDigits y1 y2
      let b ← twoDigits y3 y4
      let m ← twoDigits m1 m2
      let d ← twoDigits d1 d2
      let h ← twoDigits h1 h2
      let mi ← twoDigits n1 n2
      mkInstant (100 * a + b) m d h mi 0
  | [y1, y2, y3, y4, '-', m1, m2, '-', d1, d2, 'T', h1, h2, ':', n1, n2, ':', s1, s2] => do
      let a ← twoDigits y1 y2
      let b ← twoDigits y3 y4
      let m ← twoDigits m1 m2
      let d ← twoDigits d1 d2
      let h ← twoDigits h1 h2
      let mi ← twoDigits n1 n2
      let s ← twoDigits s1 s2
      mkInstant (100 * a + b) m d h mi s
  | _ => none

/-- A shift record (`Shift` in `types.ts`), with the optional
`isConflicting` flag added by the Conflict Reconciler and the optional
`selected` flag used by the Selection State variant of the app. -/
structure Shift where
  date : String
  startTime : String
  endTime : String
  location : String
  dayOfWeek : String
  isConflicting : Option Bool := none
  selected : Option Bool := none
deriving Repr, DecidableEq

/-- An existing calendar event as consumed by the reconciler:
`event.start.dateTime` and `event.end.dateTime`. -/
structure CalEvent where
  startDateTime : String
  endDateTime : String
deriving Repr, DecidableEq

/-- The inner overlap test of `checkForConflicts` (`src/App.tsx` 370-379,
part_003 491-502): combine the shift's date with its start/end times, parse
each existing event's instants, and report `shiftStart < eventEnd &&
shiftEnd > eventStart` for some event. -/
def shiftIsConflicting (existingEvents : List CalEvent) (shift : Shift) : Bool :=
  let shiftStart := parseDateTime (shift.date ++ "T" ++ shift.startTime)
  let shiftEnd := parseDateTime (shift.date ++ "T" ++ shift.endTime)
  existingEvents.any fun event =>
    let eventStart := parseDateTime event.startDateTime
    let eventEnd := parseDateTime event.endDateTime
    jsLtNum shiftStart eventEnd && jsGtNum shiftEnd eventStart

example : parseDateTime "2025-08-18T15:30" = some ((((toDayNumber 2025 8 18) * 24 + 15) * 60 + 30) * 60) := by decide
example : parseDateTime "2025-13-18T15:30" = none := by decide
example : parseDateTime "2025-02-30T15:30" = none := by decide
example : parseDateTime "garbageTgarbage" = none := by decide
example :
    shiftIsConflicting [{ startDateTime := "2025-08-18T09:00", endDateTime := "2025-08-18T17:00" }]
      { date := "2025-08-18", startTime := "15:30", endTime := "22:00", location := "ASICS", dayOfWeek := "שני" } = true := by decide
example :
    shiftIsConflicting [{ startDateTime := "2025-08-18T09:00", endDateTime := "2025-08-18T15:30" }]
      { date := "2025-08-18", startTime := "15:30", endTime := "22:00", location := "ASICS", dayOfWeek := "שני" } = false := by decide

/-- Wizard step of the application state machine (`AppStep` in the source). -/
inductive AppStep where
  | CONFIG
  | UPLOAD
  | REVIEW
  | ADDING
  | DONE
deriving Repr, DecidableEq

/-- `minDate` reduction of `checkForConflicts`: `shifts.reduce((min, s) =>
s.date < min ? s.date : min, shifts[0].date)` (App.tsx 355, part_003 472-475).
JavaScript string `<` is lexicographic, as is Lean's `String` order. -/
def minDateOf (shifts : List Shift) : String :=
  match shifts with
  | [] => ""
  | s0 :: _ => shifts.foldl (fun min s => if jsLtStr s.date min then s.date else min) s0.date

/-- `maxDate` reduction of `checkForConflicts`: `shifts.reduce((max, s) =>
s.date > max ? s.date : max, shifts[0].date)` (App.tsx 356, part_003 476-479). -/
def maxDateOf (shifts : List Shift) : String :=
  match shifts with
  | [] => ""
  | s0 :: _ => shifts.foldl (fun max s => if jsLtStr max s.date then s.date else max) s0.date

/-- `checkForConflicts` of the Selection State app variant (part_003 468-511),
with the calendar events-list query abstracted as its outcome `queryResult`.
Returns the (possibly annotated) shift list together with the advisory error
surfaced via `setError`, or `none` when no error is set. -/
def checkForConflicts3 (selectedCalendarId : Option String)
    (queryResult : Except String (List CalEvent)) (shifts : List Shift) :
    List Shift × Option String :=
  if selectedCalendarId.isNone || shifts.length == 0 then
    (shifts.map fun s => { s with selected := some true }, none)
  else
    match queryResult with
    | .error msg =>
        (shifts.map fun s => { s with selected := some true },
         some ("Could not check for calendar conflicts: " ++ msg))
    | .ok existingEvents =>
        if existingEvents.length == 0 then
          (shifts.map fun s => { s with selected := some true }, none)
        else
          (shifts.map fun shift =>
            { shift with isConflicting := some (shiftIsConflicting existingEvents shift),
                         selected := some true }, none)

/-- Outcome of `handleExtractShifts`: the wizard step reached, the shift list
stored via `setExtractedShifts`, and the error surfaced via `setError`. -/
structure ExtractOutcome where
  appStep : AppStep
  extractedShifts : List Shift
  errorMsg : Option String
deriving Repr, DecidableEq

/-- `handleExtractShifts` of the Selection State app variant (part_003
513-539) from the point where extraction has already produced
`initialShifts`: a non-empty list is reconciled and shown at the review
step; an empty one surfaces an error and stays at upload, leaving the
previously stored shifts `prev` untouched. -/
def handleExtractShifts3 (prev : List Shift) (userName : String)
    (selectedCalendarId : Option String)
    (queryResult : Except String (List CalEvent)) (initialShifts : List Shift) :
    ExtractOutcome :=
  if initialShifts.length > 0 then
    let r := checkForConflicts3 selectedCalendarId queryResult initialShifts
    { appStep := .REVIEW, extractedShifts := r.1, errorMsg := r.2 }
  else
    { appStep := .UPLOAD, extractedShifts := prev,
      errorMsg := some ("No shifts found for \"" ++ userName ++
        "\". Please check the name spelling or upload a different image.") }

/-- `handleToggleShift` (part_003 593-597): flip the `selected` flag of the
record at `index`. An out-of-range index is `none` (the JavaScript code would
throw a `TypeError` reading a property of `undefined`). -/
def handleToggleShift (extractedShifts : List Shift) (index : Nat) :
    Option (List Shift) :=
  match extractedShifts.get? index with
  | none => none
  | some s =>
      some (extractedShifts.set index
        { s with selected := some (!(truthy s.selected)) })

/-- The calendar event payload built by `handleAddShiftsToCalendar`
(App.tsx 441-453, part_003 555-567). -/
structure EventPayload where
  summary : String
  location : String
  description : String
  startDateTime : String
  endDateTime : String
  timeZone : String
deriving Repr, DecidableEq

/-- Per-shift insert payload construction (identical in both app variants):
title/description derived from `location`, start/end as date `T` time `:00`,
tagged with the viewer's resolved time zone `tz`. -/
def toEventPayload (tz : String) (shift : Shift) : EventPayload :=
  { summary := "Work Shift: " ++ shift.location
    location := shift.location
    description := "Shift at " ++ shift.location
    startDateTime := shift.date ++ "T" ++ shift.startTime ++ ":00"
    endDateTime := shift.date ++ "T" ++ shift.endTime ++ ":00"
    timeZone := tz }

/-- A calendar API mutation request. The source only ever issues event
inserts; the `delete` constructor exists so that the absence of any
compensating call is a contentful statement about the request log. -/
inductive CalRequest where
  | insert : EventPayload → CalRequest
  | delete : String → CalRequest
deriving Repr, DecidableEq

/-- Result of a calendar-write step: the wizard step reached, the error set,
and the log of calendar requests issued. -/
structure WriteOutcome where
  appStep : AppStep
  errorMsg : Option String
  requests : List CalRequest
deriving Repr, DecidableEq

/-- `handleAddShiftsToCalendar` of the Selection State app variant (part_003
541-582).  The per-request outcomes of the concurrently issued inserts are
abstracted as `ok i` for the `i`-th request of the batch; `Promise.all`
succeeds exactly when every request does.  `prevStep`/`prevError` are the
state left untouched by the initial guard. -/
def handleAddShiftsToCalendar3 (prevStep : AppStep) (prevError : Option String)
    (selectedCalendarId : Option String) (extractedShifts : List Shift)
    (tz : String) (ok : Nat → Bool) : WriteOutcome :=
  if selectedCalendarId.isNone || extractedShifts.length == 0 then
    { appStep := prevStep, errorMsg := prevError, requests := [] }
  else
    let shiftsToAdd := extractedShifts.filter fun s => truthy s.selected
    if shiftsToAdd.length == 0 then
      { appStep := .REVIEW, errorMsg := some "No shifts selected to add.",
        requests := [] }
    else
      let requests := shiftsToAdd.map fun s => CalRequest.insert (toEventPayload tz s)
      if (List.range shiftsToAdd.length).all ok then
        { appStep := .DONE, errorMsg := none, requests := requests }
      else
        { appStep := .REVIEW,
          errorMsg := some "Failed to add events: Unknown error",
          requests := requests }

/-- `handleAddShiftsToCalendar` of the `forceAdd` app variant (App.tsx
422-471): with the flag off, the batch is the extracted shifts whose
`isConflicting` is not truthy; the guard additionally requires the calendar
client to be initialised. -/
def handleAddShiftsToCalendarA (prevStep : AppStep) (prevError : Option String)
    (selectedCalendarId : Option String) (gapiInitialized : Bool)
    (extractedShifts : List Shift) (forceAdd : Bool)
    (tz : String) (ok : Nat → Bool) : WriteOutcome :=
  if selectedCalendarId.isNone || extractedShifts.length == 0 || !gapiInitialized then
    { appStep := prevStep, errorMsg := prevError, requests := [] }
  else
    let shiftsToAdd :=
      if forceAdd then extractedShifts
      else extractedShifts.filter fun s => !(truthy s.isConflicting)
    if shiftsToAdd.length == 0 then
      { appStep := .REVIEW,
        errorMsg := some "No shifts to add. All found shifts have conflicts.",
        requests := [] }
    else
      let requests := shiftsToAdd.map fun s => CalRequest.insert (toEventPayload tz s)
      if (List.range shiftsToAdd.length).all ok then
        { appStep := .DONE, errorMsg := none, requests := requests }
      else
        { appStep := .REVIEW,
          errorMsg := some "Failed to add events: Unknown error",
          requests := requests }

/-- A raw extracted record as it comes out of `JSON.parse` of the model
response, before validation: each schema field may be absent. -/
structure RawShift where
  date : Option String
  startTime : Option String
  endTime : Option String
  location : Option String
  dayOfWeek : Option String
deriving Repr, DecidableEq

/-- The regular expression `^\d{4}-\d{2}-\d{2}$` (part_001 line 151). -/
def matchesDateRe (s : String) : Bool :=
  match s.data with
  | [a, b, c, d, g1, e, f, g2, g, h] =>
      a.isDigit && b.isDigit && c.isDigit && d.isDigit && g1 == '-' &&
        e.isDigit && f.isDigit && g2 == '-' && g.isDigit && h.isDigit
  | _ => false

/-- The regular expression `^\d{2}:\d{2}$` (part_001 lines 153-154). -/
def matchesTimeRe (s : String) : Bool :=
  match s.data with
  | [a, b, c, d, e] => a.isDigit && b.isDigit && c == ':' && d.isDigit && e.isDigit
  | _ => false

/-- JavaScript `re.test(x)` on a possibly-absent field: `undefined` is
coerced to the string `"undefined"` before matching. -/
def jsTest (re : String → Bool) : Option String → Bool
  | none => re "undefined"
  | some s => re s

/-- The validation-filter predicate of `extractShiftsFromImage` (part_001
144-172): require all five fields truthy, then the date regex, then both
time regexes, with the same early-false structure as the source. -/
def shiftValidFilter (shift : RawShift) : Bool :=
  let hasRequiredFields :=
    truthyStr shift.date && truthyStr shift.startTime && truthyStr shift.endTime &&
      truthyStr shift.location && truthyStr shift.dayOfWeek
  let isValidDate := jsTest matchesDateRe shift.date
  let isValidTime :=
    jsTest matchesTimeRe shift.startTime && jsTest matchesTimeRe shift.endTime
  if !hasRequiredFields then false
  else if !isValidDate then false
  else if !isValidTime then false
  else true

/-- Response handling of the validating `extractShiftsFromImage` variant
(part_001 131-172): a falsy (empty) body is the "no shifts found" path; a
parse failure is the "malformed AI output" error; otherwise the `shifts`
field (defaulted to `[]` when absent) is run through the validation filter.
`JSON.parse` is abstracted as `parsed`, returning `none` when it throws and
otherwise the optional `shifts` field of the parsed object. -/
def processExtractionResponse1
    (parsed : String → Option (Option (List RawShift))) (responseText : String) :
    Except String (List RawShift) :=
  if responseText == "" then .ok []
  else
    match parsed responseText with
    | none => .error "AI response was not in valid JSON format. Please try again."
    | some shiftsField => .ok ((shiftsField.getD []).filter shiftValidFilter)

/-- Response handling of the `src/services/geminiService.ts` variant
(lines 75-80): trim the body, return `[]` when the trimmed body is empty,
otherwise parse a bare array (no validation filter in this variant). -/
def processExtractionResponseG
    (parsed : String → Option (List RawShift)) (responseText : String) :
    Except String (List RawShift) :=
  let jsonText := jsTrim responseText
  if jsonText == "" then .ok []
  else
    match parsed jsonText with
    | none =>
        .error "Failed to analyze the schedule. The AI model could not process the image."
    | some parsedShifts => .ok parsedShifts

/-- The outbound extraction request of `src/services/geminiService.ts`
(lines 51-73): model name, prompt text parameterised by the user name, and
the inline image data. -/
structure GenRequest where
  model : String
  promptText : String
  mimeType : String
  imageData : String
deriving Repr, DecidableEq

/-- The pre-network phase of `extractShiftsFromImage`
(`src/services/geminiService.ts` 47-73): a falsy or `%%`-prefixed
placeholder credential throws the configuration error before any request is
built; otherwise exactly one generateContent request is issued. -/
def extractShiftsPreflight (apiKey userName mimeType imageData : String) :
    Except String GenRequest :=
  if apiKey == "" || jsStartsWith apiKey "%%" then
    .error "Application is not configured correctly. The API_KEY is missing or has not been injected."
  else
    .ok { model := "gemini-2.5-flash"
          promptText :=
            "Analyze this work schedule image. The user's name is '" ++ userName ++
              "'. The text is a mix of Hebrew and English. Find all shifts assigned specifically to '" ++
              userName ++
              "'. For each shift, extract the full date from the leftmost column (the year is 2025), the start and end times from the cell, the Hebrew day of the week, and the location from the column header ('ASICS' or 'ORIGINALS'). Respond with a JSON array matching the provided schema. If no shifts are found for this name, return an empty array."
          mimeType := mimeType
          imageData := imageData }

lemma jsLtNum_none_left (x : Option Nat) : jsLtNum none x = false := by
  cases x <;> rfl

lemma jsLtNum_none_right (x : Option Nat) : jsLtNum x none = false := by
  cases x <;> rfl

lemma shiftIsConflicting_eq (existingEvents : List CalEvent) (shift : Shift) :
    shiftIsConflicting existingEvents shift =
      existingEvents.any fun event =>
        jsLtNum (parseDateTime (shift.date ++ "T" ++ shift.startTime))
            (parseDateTime event.endDateTime) &&
          jsGtNum (parseDateTime (shift.date ++ "T" ++ shift.endTime))
            (parseDateTime event.startDateTime) := rfl

/-- C1: a candidate shift is marked conflicting iff some existing event has
`candidateStart < eventEnd` and `candidateEnd > eventStart`, with strict
inequalities on the combined date+time instants; touching endpoints
therefore do not count as conflicts. -/
theorem c1_conflict_iff (existingEvents : List CalEvent) (shift : Shift) (ss se : Nat)
    (hs : parseDateTime (shift.date ++ "T" ++ shift.startTime) = some ss)
    (he : parseDateTime (shift.date ++ "T" ++ shift.endTime) = some se) :
    shiftIsConflicting existingEvents shift = true ↔
      ∃ ev ∈ existingEvents, ∃ es ee,
        parseDateTime ev.startDateTime = some es ∧
        parseDateTime ev.endDateTime = some ee ∧
        ss < ee ∧ se > es := by
  rw [shiftIsConflicting_eq, List.any_eq_true]
  constructor
  · rintro ⟨ev, hev, hb⟩
    rw [hs, he, Bool.and_eq_true] at hb
    obtain ⟨h1, h2⟩ := hb
    cases hee : parseDateTime ev.endDateTime with
    | none => rw [hee, jsLtNum_none_right] at h1; exact absurd h1 (by simp)
    | some ee =>
      cases hes : parseDateTime ev.startDateTime with
      | none =>
          rw [jsGtNum, hes, jsLtNum_none_left] at h2
          exact absurd h2 (by simp)
      | some es =>
          refine ⟨ev, hev, es, ee, hes, hee, ?_, ?_⟩
          · rw [hee] at h1; simpa [jsLtNum] using h1
          · rw [jsGtNum, hes] at h2; simpa [jsLtNum] using h2
  · rintro ⟨ev, hev, es, ee, hes, hee, h1, h2⟩
    refine ⟨ev, hev, ?_⟩
    rw [hs, he, hes, hee]
    simp [jsLtNum, jsGtNum, h1, h2]

/-- Witness for C1 at the spec's touching-endpoint example: an existing
event `[09:00, 15:30)` and a candidate starting exactly at `15:30` is not
marked conflicting. -/
theorem c1_conflict_iff_witness :
    shiftIsConflicting
        [{ startDateTime := "2025-08-18T09:00", endDateTime := "2025-08-18T15:30" }]
        { date := "2025-08-18", startTime := "15:30", endTime := "22:00",
          location := "ASICS", dayOfWeek := "שני" } = false := by
  have h := c1_conflict_iff
    [{ startDateTime := "2025-08-18T09:00", endDateTime := "2025-08-18T15:30" }]
    { date := "2025-08-18", startTime := "15:30", endTime := "22:00",
      location := "ASICS", dayOfWeek := "שני" }
    (toInstant 2025 8 18 15 30 0) (toInstant 2025 8 18 22 0 0) rfl rfl
  by_contra hb
  rw [Bool.not_eq_false] at hb
  rcases h.mp hb with ⟨ev, hev, es, ee, hes, hee, hlt, hgt⟩
  rw [List.mem_singleton] at hev
  subst hev
  have h2 : parseDateTime "2025-08-18T15:30" = some (toInstant 2025 8 18 15 30 0) := rfl
  rw [show ({ startDateTime := "2025-08-18T09:00", endDateTime := "2025-08-18T15:30" } : CalEvent).endDateTime = "2025-08-18T15:30" from rfl, h2] at hee
  cases hee
  exact absurd hlt (lt_irrefl _)

/-- C9: a shift whose combined date+time strings do not parse (NaN instant)
is never marked conflicting — every overlap comparison is false — and the
reconciler neither errors nor drops it: with a non-empty event list it is
annotated `isConflicting = false`, `selected = true`, with no error set. -/
theorem c9_malformed_never_conflicting (existingEvents : List CalEvent) (shift : Shift)
    (h : parseDateTime (shift.date ++ "T" ++ shift.startTime) = none ∨
         parseDateTime (shift.date ++ "T" ++ shift.endTime) = none) :
    shiftIsConflicting existingEvents shift = false ∧
      (existingEvents ≠ [] →
        ∀ (calId : String) (shifts : List Shift), shift ∈ shifts →
          { shift with isConflicting := some false, selected := some true } ∈
              (checkForConflicts3 (some calId) (.ok existingEvents) shifts).1 ∧
            (checkForConflicts3 (some calId) (.ok existingEvents) shifts).2 = none) := by
  have hfalse : shiftIsConflicting existingEvents shift = false := by
    rw [shiftIsConflicting_eq, List.any_eq_false]
    intro ev _
    rcases h with h | h
    · rw [h, jsLtNum_none_left]; simp
    · rw [jsGtNum, h, jsLtNum_none_right]; simp
  refine ⟨hfalse, fun hne calId shifts hmem => ?_⟩
  have hsne : shifts ≠ [] := fun hnil => by simp [hnil] at hmem
  have hrw : checkForConflicts3 (some calId) (.ok existingEvents) shifts =
      (shifts.map fun s =>
        { s with isConflicting := some (shiftIsConflicting existingEvents s),
                 selected := some true }, none) := by
    unfold checkForConflicts3
    rw [if_neg (by simp [List.length_eq_zero, hsne])]
    dsimp only
    rw [if_neg (by simp [List.length_eq_zero, hne])]
  rw [hrw]
  refine ⟨?_, rfl⟩
  exact List.mem_map.mpr ⟨shift, hmem, by rw [hfalse]⟩

/-- A malformed extracted record: its date is still in `DD.MM.YY` form, so
the combined `date + "T" + time` string does not parse (NaN instant). -/
def malformedShift : Shift :=
  { date := "18.08.25", startTime := "15:30", endTime := "22:00",
    location := "ASICS", dayOfWeek := "ראשון" }

/-- A sample existing calendar event `[09:00, 17:00)` on 2025-08-18. -/
def sampleEvent : CalEvent :=
  { startDateTime := "2025-08-18T09:00:00", endDateTime := "2025-08-18T17:00:00" }

/-- Witness for C9: a record whose date was left in `DD.MM.YY` form is
annotated non-conflicting by the reconciler with no error raised. -/
theorem c9_malformed_never_conflicting_witness :
    shiftIsConflicting [sampleEvent] malformedShift = false ∧
      ({ malformedShift with isConflicting := some false, selected := some true } ∈
          (checkForConflicts3 (some "primary") (.ok [sampleEvent]) [malformedShift]).1 ∧
        (checkForConflicts3 (some "primary") (.ok [sampleEvent]) [malformedShift]).2 = none) := by
  have h := c9_malformed_never_conflicting [sampleEvent] malformedShift (Or.inl rfl)
  exact ⟨h.1, h.2 (List.cons_ne_nil _ _) "primary" [malformedShift] (List.mem_singleton.mpr rfl)⟩

/-- C6: an empty (or, in the `geminiService.ts` variant, whitespace-only)
extraction response body yields the empty shift list, not an error, in both
variants of `extractShiftsFromImage`. -/
theorem c6_empty_body_empty_list :
    (∀ parsed, processExtractionResponse1 parsed "" = .ok []) ∧
    (∀ parsedG, processExtractionResponseG parsedG "" = .ok []) :=
  ⟨fun _ => rfl, fun _ => rfl⟩

/-- C7: an empty or `%%`-placeholder credential makes `extractShiftsFromImage`
fail with the configuration error before any extraction request is built. -/
theorem c7_credential_fail_fast (apiKey userName mimeType imageData : String)
    (h : apiKey = "" ∨ jsStartsWith apiKey "%%" = true) :
    extractShiftsPreflight apiKey userName mimeType imageData =
      .error "Application is not configured correctly. The API_KEY is missing or has not been injected." := by
  unfold extractShiftsPreflight
  rcases h with h | h
  · subst h; rfl
  · rw [if_pos (by simp [h])]

/-- Witness for C7 at the un-substituted placeholder credential. -/
theorem c7_credential_fail_fast_witness :
    extractShiftsPreflight "%%API_KEY%%" "Dana" "image/png" "aGVsbG8=" =
      .error "Application is not configured correctly. The API_KEY is missing or has not been injected." :=
  c7_credential_fail_fast "%%API_KEY%%" "Dana" "image/png" "aGVsbG8=" (Or.inr (by decide))

lemma checkForConflicts3_error (calId errMsg : String) (shifts : List Shift)
    (h : shifts ≠ []) :
    checkForConflicts3 (some calId) (.error errMsg) shifts =
      (shifts.map fun s => { s with selected := some true },
       some ("Could not check for calendar conflicts: " ++ errMsg)) := by
  unfold checkForConflicts3
  rw [if_neg (by simp [List.length_eq_zero, h])]

/-- C4: when the existing-events query fails, the reconciler does not fail
the pipeline: the caller still reaches the review step with the original
candidates (each marked selected), and only an advisory error is surfaced. -/
theorem c4_conflict_query_failure (prev : List Shift) (userName calId errMsg : String)
    (initialShifts : List Shift) (h : initialShifts ≠ []) :
    handleExtractShifts3 prev userName (some calId) (.error errMsg) initialShifts =
      { appStep := .REVIEW,
        extractedShifts := initialShifts.map fun s => { s with selected := some true },
        errorMsg := some ("Could not check for calendar conflicts: " ++ errMsg) } := by
  unfold handleExtractShifts3
  rw [if_pos (List.length_pos.mpr h)]
  dsimp only
  rw [checkForConflicts3_error calId errMsg initialShifts h]

/-- A sample valid extracted shift. -/
def sampleShift : Shift :=
  { date := "2025-08-18", startTime := "15:30", endTime := "22:00",
    location := "ASICS", dayOfWeek := "שני" }

/-- Witness for C4: a failing events query still reaches review with the
single candidate marked selected and an advisory error. -/
theorem c4_conflict_query_failure_witness :
    handleExtractShifts3 [] "Dana" (some "primary") (.error "Backend Error") [sampleShift] =
      { appStep := .REVIEW,
        extractedShifts := [sampleShift].map fun s => { s with selected := some true },
        errorMsg := some ("Could not check for calendar conflicts: " ++ "Backend Error") } :=
  c4_conflict_query_failure [] "Dana" "primary" "Backend Error" [sampleShift]
    (List.cons_ne_nil _ _)

lemma matchesDateRe_empty : matchesDateRe "" = false := by decide

lemma matchesTimeRe_empty : matchesTimeRe "" = false := by decide

lemma matchesDateRe_undef : matchesDateRe "undefined" = false := by decide

lemma matchesTimeRe_undef : matchesTimeRe "undefined" = false := by decide

lemma ifChain_eq_and (a b c : Bool) :
    (if !a then false else if !b then false else if !c then false else true) =
      (a && b && c) := by
  cases a <;> cases b <;> cases c <;> rfl

lemma shiftValidFilter_eq (r : RawShift) :
    shiftValidFilter r =
      ((truthyStr r.date && truthyStr r.startTime && truthyStr r.endTime &&
          truthyStr r.location && truthyStr r.dayOfWeek) &&
        jsTest matchesDateRe r.date &&
        (jsTest matchesTimeRe r.startTime && jsTest matchesTimeRe r.endTime)) :=
  ifChain_eq_and _ _ _

lemma presentAndRe_iff (f : Option String) (re : String → Bool)
    (hempty : re "" = false) (hundef : re "undefined" = false) :
    (truthyStr f = true ∧ jsTest re f = true) ↔ ∃ s, f = some s ∧ re s = true := by
  cases f with
  | none => simp [truthyStr, jsTest, hundef]
  | some s =>
      by_cases hs : s = ""
      · subst hs; simp [truthyStr, jsTest, hempty]
      · simp [truthyStr, jsTest, hs]

lemma shiftValidFilter_iff (r : RawShift) :
    shiftValidFilter r = true ↔
      ((∃ d, r.date = some d ∧ matchesDateRe d = true) ∧
       (∃ t, r.startTime = some t ∧ matchesTimeRe t = true) ∧
       (∃ t, r.endTime = some t ∧ matchesTimeRe t = true) ∧
       truthyStr r.location = true ∧ truthyStr r.dayOfWeek = true) := by
  rw [shiftValidFilter_eq]
  simp only [Bool.and_eq_true]
  rw [← presentAndRe_iff r.date matchesDateRe matchesDateRe_empty matchesDateRe_undef,
    ← presentAndRe_iff r.startTime matchesTimeRe matchesTimeRe_empty matchesTimeRe_undef,
    ← presentAndRe_iff r.endTime matchesTimeRe matchesTimeRe_empty matchesTimeRe_undef]
  tauto

/-- C2: for a parsed extraction response, the validating
`extractShiftsFromImage` returns exactly the records with all five fields
present and the date/time regexes satisfied; every other record is dropped,
and if every record is dropped the result is the empty list, not an error. -/
theorem c2_validation_filter
    (parsed : String → Option (Option (List RawShift))) (responseText : String)
    (shiftsField : Option (List RawShift))
    (h1 : ¬ responseText = "") (h2 : parsed responseText = some shiftsField) :
    ∃ kept, processExtractionResponse1 parsed responseText = .ok kept ∧
      (∀ r, r ∈ kept ↔ r ∈ shiftsField.getD [] ∧
        ((∃ d, r.date = some d ∧ matchesDateRe d = true) ∧
         (∃ t, r.startTime = some t ∧ matchesTimeRe t = true) ∧
         (∃ t, r.endTime = some t ∧ matchesTimeRe t = true) ∧
         truthyStr r.location = true ∧ truthyStr r.dayOfWeek = true)) ∧
      ((∀ r ∈ shiftsField.getD [], shiftValidFilter r = false) → kept = []) := by
  refine ⟨(shiftsField.getD []).filter shiftValidFilter, ?_, ?_, ?_⟩
  · unfold processExtractionResponse1
    rw [if_neg (by simpa using h1), h2]
  · intro r
    rw [List.mem_filter, shiftValidFilter_iff]
  · intro hall
    rw [List.filter_eq_nil_iff]
    intro r hr
    simp [hall r hr]

/-- A raw record passing the validation filter. -/
def rawGood : RawShift :=
  { date := some "2025-08-18", startTime := some "15:30", endTime := some "22:00",
    location := some "ASICS", dayOfWeek := some "שני" }

/-- A raw record whose date is still `DD.MM.YY`, failing the date regex. -/
def rawBadDate : RawShift :=
  { date := some "18.08.25", startTime := some "09:00", endTime := some "16:00",
    location := some "ASICS", dayOfWeek := some "ראשון" }

/-- A raw record missing its required `location` field. -/
def rawMissing : RawShift :=
  { date := some "2025-08-19", startTime := some "09:00", endTime := some "16:00",
    location := none, dayOfWeek := some "שני" }

/-- Witness for C2 on a concrete parsed response holding one valid record,
one regex-failing record and one field-missing record. -/
theorem c2_validation_filter_witness :
    ∃ kept, processExtractionResponse1
        (fun _ => some (some [rawGood, rawBadDate, rawMissing])) "resp" = .ok kept ∧
      (∀ r, r ∈ kept ↔
          r ∈ (some [rawGood, rawBadDate, rawMissing] : Option (List RawShift)).getD [] ∧
        ((∃ d, r.date = some d ∧ matchesDateRe d = true) ∧
         (∃ t, r.startTime = some t ∧ matchesTimeRe t = true) ∧
         (∃ t, r.endTime = some t ∧ matchesTimeRe t = true) ∧
         truthyStr r.location = true ∧ truthyStr r.dayOfWeek = true)) ∧
      ((∀ r ∈ (some [rawGood, rawBadDate, rawMissing] : Option (List RawShift)).getD [],
          shiftValidFilter r = false) → kept = []) :=
  c2_validation_filter (fun _ => some (some [rawGood, rawBadDate, rawMissing])) "resp"
    (some [rawGood, rawBadDate, rawMissing]) (by decide) rfl

/-- C8: toggling the shift at a valid index flips only its `selected` field:
the list keeps its length and order, every other entry is unchanged, and
every other field of the toggled entry is unchanged. -/
theorem c8_toggle_frame (shifts : List Shift) (i : Nat) (s : Shift)
    (hi : shifts.get? i = some s) :
    ∃ l, handleToggleShift shifts i = some l ∧
      l.length = shifts.length ∧
      (∀ j, j ≠ i → l.get? j = shifts.get? j) ∧
      ∃ t, l.get? i = some t ∧
        t.date = s.date ∧ t.dayOfWeek = s.dayOfWeek ∧ t.startTime = s.startTime ∧
        t.endTime = s.endTime ∧ t.location = s.location ∧
        t.isConflicting = s.isConflicting ∧
        t.selected = some (!(truthy s.selected)) := by
  obtain ⟨hlt, -⟩ := List.get?_eq_some.mp hi
  refine ⟨shifts.set i { s with selected := some (!(truthy s.selected)) }, ?_, ?_, ?_, ?_⟩
  · unfold handleToggleShift
    rw [hi]
  · exact List.length_set shifts i _
  · intro j hj
    exact List.get?_set_ne _ _ (Ne.symm hj)
  · exact ⟨_, List.get?_set_eq_of_lt _ hlt, rfl, rfl, rfl, rfl, rfl, rfl, rfl⟩

/-- A second sample reconciled shift, conflicting and selected. -/
def sampleShift2 : Shift :=
  { date := "2025-08-19", startTime := "09:00", endTime := "16:00",
    location := "ORIGINALS", dayOfWeek := "שלישי",
    isConflicting := some true, selected := some true }

/-- Witness for C8: toggling index 1 of a two-shift list. -/
theorem c8_toggle_frame_witness :
    ∃ l, handleToggleShift [sampleShift, sampleShift2] 1 = some l ∧
      l.length = ([sampleShift, sampleShift2] : List Shift).length ∧
      (∀ j, j ≠ 1 → l.get? j = ([sampleShift, sampleShift2] : List Shift).get? j) ∧
      ∃ t, l.get? 1 = some t ∧
        t.date = sampleShift2.date ∧ t.dayOfWeek = sampleShift2.dayOfWeek ∧
        t.startTime = sampleShift2.startTime ∧ t.endTime = sampleShift2.endTime ∧
        t.location = sampleShift2.location ∧
        t.isConflicting = sampleShift2.isConflicting ∧
        t.selected = some (!(truthy sampleShift2.selected)) :=
  c8_toggle_frame [sampleShift, sampleShift2] 1 sampleShift2 rfl


example : jsLtStr "2025-08-17" "2025-08-20" = true := by decide
example : jsLtStr "2025-08-20" "2025-08-17" = false := by decide

lemma jsLtChars_cons (x y : Char) (xs ys : List Char) :
    jsLtChars (x :: xs) (y :: ys) =
      if x < y then true else if y < x then false else jsLtChars xs ys := rfl

lemma jsLtChars_irrefl (l : List Char) : jsLtChars l l = false := by
  induction l with
  | nil => rfl
  | cons x xs ih => rw [jsLtChars_cons, if_neg (lt_irrefl x), if_neg (lt_irrefl x), ih]

lemma jsLtChars_trans (a : List Char) : ∀ b c : List Char,
    jsLtChars a b = true → jsLtChars b c = true → jsLtChars a c = true := by
  induction a with
  | nil =>
    intro b c hab hbc
    cases b with
    | nil => exact absurd hab (by simp [jsLtChars])
    | cons y ys =>
      cases c with
      | nil => exact absurd hbc (by simp [jsLtChars])
      | cons z zs => rfl
  | cons x xs ih =>
    intro b c hab hbc
    cases b with
    | nil => exact absurd hab (by simp [jsLtChars])
    | cons y ys =>
      cases c with
      | nil => exact absurd hbc (by simp [jsLtChars])
      | cons z zs =>
        rw [jsLtChars_cons] at hab hbc ⊢
        by_cases hxy : x < y
        · by_cases hyz : y < z
          · rw [if_pos (lt_trans hxy hyz)]
          · by_cases hzy : z < y
            · rw [if_neg hyz, if_pos hzy] at hbc
              exact absurd hbc (by simp)
            · have hyz_eq : y = z := le_antisymm (le_of_not_lt hzy) (le_of_not_lt hyz)
              subst hyz_eq
              rw [if_pos hxy]
        · by_cases hyx : y < x
          · rw [if_neg hxy, if_pos hyx] at hab
            exact absurd hab (by simp)
          · have hxy_eq : x = y := le_antisymm (le_of_not_lt hyx) (le_of_not_lt hxy)
            subst hxy_eq
            rw [if_neg hxy, if_neg hyx] at hab
            by_cases hxz : x < z
            · rw [if_pos hxz]
            · by_cases hzx : z < x
              · rw [if_neg hxz, if_pos hzx] at hbc
                exact absurd hbc (by simp)
              · rw [if_neg hxz, if_neg hzx] at hbc ⊢
                exact ih ys zs hab hbc

lemma jsLtChars_not_lt (a : List Char) : ∀ b : List Char,
    jsLtChars a b = false → a = b ∨ jsLtChars b a = true := by
  induction a with
  | nil =>
    intro b h
    cases b with
    | nil => exact Or.inl rfl
    | cons y ys => exact absurd h (by simp [jsLtChars])
  | cons x xs ih =>
    intro b h
    cases b with
    | nil => exact Or.inr rfl
    | cons y ys =>
      rw [jsLtChars_cons] at h
      by_cases hxy : x < y
      · rw [if_pos hxy] at h
        exact absurd h (by simp)
      · by_cases hyx : y < x
        · exact Or.inr (by rw [jsLtChars_cons, if_pos hyx])
        · have hxy_eq : x = y := le_antisymm (le_of_not_lt hyx) (le_of_not_lt hxy)
          subst hxy_eq
          rw [if_neg hxy, if_neg hxy] at h
          rcases ih ys h with heq | hlt
          · exact Or.inl (by rw [heq])
          · exact Or.inr (by rw [jsLtChars_cons, if_neg hxy, if_neg hxy]; exact hlt)

lemma jsLtStr_trans {a b c : String} (h1 : jsLtStr a b = true) (h2 : jsLtStr b c = true) :
    jsLtStr a c = true :=
  jsLtChars_trans a.data b.data c.data h1 h2

lemma jsLtStr_not_lt {a b : String} (h : jsLtStr a b = false) :
    a = b ∨ jsLtStr b a = true := by
  rcases jsLtChars_not_lt a.data b.data h with heq | hlt
  · exact Or.inl (congrArg String.mk heq)
  · exact Or.inr hlt


lemma minFold_spec (l : List Shift) (a : String) :
    (l.foldl (fun min s => if jsLtStr s.date min then s.date else min) a = a ∨
       l.foldl (fun min s => if jsLtStr s.date min then s.date else min) a ∈ l.map Shift.date) ∧
      jsLtStr a (l.foldl (fun min s => if jsLtStr s.date min then s.date else min) a) = false ∧
      ∀ s ∈ l, jsLtStr s.date
        (l.foldl (fun min s => if jsLtStr s.date min then s.date else min) a) = false := by
  induction l generalizing a with
  | nil => exact ⟨Or.inl rfl, jsLtChars_irrefl _, by simp⟩
  | cons x xs ih =>
    simp only [List.foldl_cons]
    by_cases hx : jsLtStr x.date a = true
    · obtain ⟨ihmem, ihle, ihall⟩ := ih (if jsLtStr x.date a then x.date else a)
      rw [if_pos hx] at ihmem ihle ihall
      rw [if_pos hx]
      refine ⟨?_, ?_, ?_⟩
      · rcases ihmem with h | h
        · rw [h, List.map_cons]; exact Or.inr (List.mem_cons_self _ _)
        · rw [List.map_cons]; exact Or.inr (List.mem_cons_of_mem _ h)
      · by_contra hc
        rw [Bool.not_eq_false] at hc
        have htr := jsLtStr_trans hx hc
        rw [ihle] at htr
        exact absurd htr (by simp)
      · intro s hs
        rcases List.mem_cons.mp hs with hsx | hsmem
        · rw [hsx]; exact ihle
        · exact ihall s hsmem
    · rw [Bool.not_eq_true] at hx
      have hxif : (if jsLtStr x.date a then x.date else a) = a :=
        if_neg (by rw [hx]; exact Bool.false_ne_true)
      obtain ⟨ihmem, ihle, ihall⟩ := ih (if jsLtStr x.date a then x.date else a)
      rw [hxif] at ihmem ihle ihall
      rw [hxif]
      refine ⟨?_, ihle, ?_⟩
      · rcases ihmem with h | h
        · exact Or.inl h
        · rw [List.map_cons]; exact Or.inr (List.mem_cons_of_mem _ h)
      · intro s hs
        rcases List.mem_cons.mp hs with hsx | hsmem
        · rw [hsx]
          by_contra hc
          rw [Bool.not_eq_false] at hc
          rcases jsLtStr_not_lt hx with heq | hlt
          · rw [heq] at hc; rw [hc] at ihle; exact absurd ihle (by simp)
          · have htr := jsLtStr_trans hlt hc
            rw [ihle] at htr
            exact absurd htr (by simp)
        · exact ihall s hsmem

lemma maxFold_spec (l : List Shift) (a : String) :
    (l.foldl (fun max s => if jsLtStr max s.date then s.date else max) a = a ∨
       l.foldl (fun max s => if jsLtStr max s.date then s.date else max) a ∈ l.map Shift.date) ∧
      jsLtStr (l.foldl (fun max s => if jsLtStr max s.date then s.date else max) a) a = false ∧
      ∀ s ∈ l, jsLtStr
        (l.foldl (fun max s => if jsLtStr max s.date then s.date else max) a) s.date = false := by
  induction l generalizing a with
  | nil => exact ⟨Or.inl rfl, jsLtChars_irrefl _, by simp⟩
  | cons x xs ih =>
    simp only [List.foldl_cons]
    by_cases hx : jsLtStr a x.date = true
    · obtain ⟨ihmem, ihle, ihall⟩ := ih (if jsLtStr a x.date then x.date else a)
      rw [if_pos hx] at ihmem ihle ihall
      rw [if_pos hx]
      refine ⟨?_, ?_, ?_⟩
      · rcases ihmem with h | h
        · rw [h, List.map_cons]; exact Or.inr (List.mem_cons_self _ _)
        · rw [List.map_cons]; exact Or.inr (List.mem_cons_of_mem _ h)
      · by_contra hc
        rw [Bool.not_eq_false] at hc
        have htr := jsLtStr_trans hc hx
        rw [ihle] at htr
        exact absurd htr (by simp)
      · intro s hs
        rcases List.mem_cons.mp hs with hsx | hsmem
        · rw [hsx]; exact ihle
        · exact ihall s hsmem
    · rw [Bool.not_eq_true] at hx
      have hxif : (if jsLtStr a x.date then x.date else a) = a :=
        if_neg (by rw [hx]; exact Bool.false_ne_true)
      obtain ⟨ihmem, ihle, ihall⟩ := ih (if jsLtStr a x.date then x.date else a)
      rw [hxif] at ihmem ihle ihall
      rw [hxif]
      refine ⟨?_, ihle, ?_⟩
      · rcases ihmem with h | h
        · exact Or.inl h
        · rw [List.map_cons]; exact Or.inr (List.mem_cons_of_mem _ h)
      · intro s hs
        rcases List.mem_cons.mp hs with hsx | hsmem
        · rw [hsx]
          by_contra hc
          rw [Bool.not_eq_false] at hc
          rcases jsLtStr_not_lt hx with heq | hlt
          · rw [← heq] at hc; rw [hc] at ihle; exact absurd ihle (by simp)
          · have htr := jsLtStr_trans hc hlt
            rw [ihle] at htr
            exact absurd htr (by simp)
        · exact ihall s hsmem

/-- C5: over a non-empty candidate list, the reconciler's single reduce
scans yield `minDate` and `maxDate` that are dates of the input list such
that no input date is lexicographically smaller than `minDate` and none is
lexicographically larger than `maxDate` (i.e. the lexicographic minimum and
maximum). -/
theorem c5_minmax_dates (shifts : List Shift) (h : shifts ≠ []) :
    (minDateOf shifts ∈ shifts.map Shift.date ∧
      ∀ s ∈ shifts, jsLtStr s.date (minDateOf shifts) = false) ∧
    (maxDateOf shifts ∈ shifts.map Shift.date ∧
      ∀ s ∈ shifts, jsLtStr (maxDateOf shifts) s.date = false) := by
  match shifts, h with
  | s0 :: rest, _ =>
    obtain ⟨hminmem, -, hminall⟩ := minFold_spec (s0 :: rest) s0.date
    obtain ⟨hmaxmem, -, hmaxall⟩ := maxFold_spec (s0 :: rest) s0.date
    constructor
    · refine ⟨?_, hminall⟩
      rcases hminmem with hm | hm
      · rw [show minDateOf (s0 :: rest) =
            (s0 :: rest).foldl (fun min s => if jsLtStr s.date min then s.date else min) s0.date
            from rfl, hm, List.map_cons]
        exact List.mem_cons_self _ _
      · exact hm
    · refine ⟨?_, hmaxall⟩
      rcases hmaxmem with hm | hm
      · rw [show maxDateOf (s0 :: rest) =
            (s0 :: rest).foldl (fun max s => if jsLtStr max s.date then s.date else max) s0.date
            from rfl, hm, List.map_cons]
        exact List.mem_cons_self _ _
      · exact hm

/-- The spec's three-date example list, in extraction order. -/
def exampleShifts : List Shift :=
  [{ date := "2025-08-20", startTime := "09:00", endTime := "16:00",
     location := "ASICS", dayOfWeek := "רביעי" },
   { date := "2025-08-17", startTime := "15:30", endTime := "22:00",
     location := "ORIGINALS", dayOfWeek := "ראשון" },
   { date := "2025-08-19", startTime := "12:00", endTime := "22:00",
     location := "ASICS", dayOfWeek := "שלישי" }]

/-- Witness for C5 at the spec's example: the dates
`["2025-08-20","2025-08-17","2025-08-19"]` yield `minDate = "2025-08-17"`
and `maxDate = "2025-08-20"`. -/
theorem c5_minmax_dates_witness :
    minDateOf exampleShifts = "2025-08-17" ∧ maxDateOf exampleShifts = "2025-08-20" ∧
      ((minDateOf exampleShifts ∈ exampleShifts.map Shift.date ∧
          ∀ s ∈ exampleShifts, jsLtStr s.date (minDateOf exampleShifts) = false) ∧
        (maxDateOf exampleShifts ∈ exampleShifts.map Shift.date ∧
          ∀ s ∈ exampleShifts, jsLtStr (maxDateOf exampleShifts) s.date = false)) :=
  ⟨by decide, by decide, c5_minmax_dates exampleShifts (List.cons_ne_nil _ _)⟩

/-- C3: for a non-empty selected batch, every insert request is issued
(one per selected shift, nothing else — in particular no compensating
delete), the step reaches DONE iff every insert succeeds, and any single
failure reports overall failure and returns the state to review. -/
theorem c3_batch_all_or_nothing (prevStep : AppStep) (prevError : Option String)
    (calId tz : String) (extractedShifts shiftsToAdd : List Shift) (ok : Nat → Bool)
    (hadd : extractedShifts.filter (fun s => truthy s.selected) = shiftsToAdd)
    (hne : shiftsToAdd ≠ []) :
    (handleAddShiftsToCalendar3 prevStep prevError (some calId) extractedShifts tz ok).requests =
        shiftsToAdd.map (fun s => CalRequest.insert (toEventPayload tz s)) ∧
      (∀ r ∈ (handleAddShiftsToCalendar3 prevStep prevError (some calId) extractedShifts tz ok).requests,
        ∃ p, r = CalRequest.insert p) ∧
      ((handleAddShiftsToCalendar3 prevStep prevError (some calId) extractedShifts tz ok).appStep = .DONE ↔
        ∀ i, i < shiftsToAdd.length → ok i = true) ∧
      ((∃ i, i < shiftsToAdd.length ∧ ok i = false) →
        (handleAddShiftsToCalendar3 prevStep prevError (some calId) extractedShifts tz ok).appStep = .REVIEW ∧
          (handleAddShiftsToCalendar3 prevStep prevError (some calId) extractedShifts tz ok).errorMsg.isSome = true) := by
  have hsne : extractedShifts ≠ [] := by
    intro hnil
    rw [hnil] at hadd
    exact hne hadd.symm
  have hred : handleAddShiftsToCalendar3 prevStep prevError (some calId) extractedShifts tz ok =
      (if (List.range shiftsToAdd.length).all ok then
        { appStep := .DONE, errorMsg := none,
          requests := shiftsToAdd.map fun s => CalRequest.insert (toEventPayload tz s) }
      else
        { appStep := .REVIEW, errorMsg := some "Failed to add events: Unknown error",
          requests := shiftsToAdd.map fun s => CalRequest.insert (toEventPayload tz s) }) := by
    unfold handleAddShiftsToCalendar3
    rw [if_neg (by simp [List.length_eq_zero, hsne] :
      ¬ (((some calId : Option String).isNone || (extractedShifts.length == 0)) = true))]
    dsimp only
    rw [hadd]
    rw [if_neg (by simp [List.length_eq_zero, hne] : ¬ ((shiftsToAdd.length == 0) = true))]
  by_cases hall : (List.range shiftsToAdd.length).all ok = true
  · rw [hred, if_pos hall]
    refine ⟨rfl, ?_, ?_, ?_⟩
    · intro r hr
      obtain ⟨s, -, rfl⟩ := List.mem_map.mp hr
      exact ⟨_, rfl⟩
    · constructor
      · intro _ i hi
        exact List.all_eq_true.mp hall i (List.mem_range.mpr hi)
      · intro _; rfl
    · rintro ⟨i, hi, hok⟩
      have hti := List.all_eq_true.mp hall i (List.mem_range.mpr hi)
      rw [hok] at hti
      exact absurd hti (by simp)
  · rw [hred, if_neg hall]
    refine ⟨rfl, ?_, ?_, fun _ => ⟨rfl, rfl⟩⟩
    · intro r hr
      obtain ⟨s, -, rfl⟩ := List.mem_map.mp hr
      exact ⟨_, rfl⟩
    · constructor
      · intro hstep
        exact AppStep.noConfusion hstep
      · intro hforall
        exact absurd (List.all_eq_true.mpr fun i hi =>
          hforall i (List.mem_range.mp hi)) hall

/-- The spec's batch example: three selected shifts. -/
def selectedShifts : List Shift :=
  [{ date := "2025-08-17", startTime := "09:00", endTime := "16:00",
     location := "ASICS", dayOfWeek := "ראשון",
     isConflicting := some false, selected := some true },
   { date := "2025-08-18", startTime := "15:30", endTime := "22:00",
     location := "ASICS", dayOfWeek := "שני",
     isConflicting := some false, selected := some true },
   { date := "2025-08-19", startTime := "12:00", endTime := "22:00",
     location := "ORIGINALS", dayOfWeek := "שלישי",
     isConflicting := some true, selected := some true }]

/-- Witness for C3 at the spec's example: three selected shifts with the
second insert failing. -/
theorem c3_batch_all_or_nothing_witness :
    (handleAddShiftsToCalendar3 .REVIEW none (some "primary") selectedShifts
        "Asia/Jerusalem" (fun i => !(i == 1))).requests =
        selectedShifts.map (fun s => CalRequest.insert (toEventPayload "Asia/Jerusalem" s)) ∧
      (∀ r ∈ (handleAddShiftsToCalendar3 .REVIEW none (some "primary") selectedShifts
          "Asia/Jerusalem" (fun i => !(i == 1))).requests,
        ∃ p, r = CalRequest.insert p) ∧
      ((handleAddShiftsToCalendar3 .REVIEW none (some "primary") selectedShifts
          "Asia/Jerusalem" (fun i => !(i == 1))).appStep = .DONE ↔
        ∀ i, i < selectedShifts.length → (fun i => !(i == 1)) i = true) ∧
      ((∃ i, i < selectedShifts.length ∧ (fun i => !(i == 1)) i = false) →
        (handleAddShiftsToCalendar3 .REVIEW none (some "primary") selectedShifts
            "Asia/Jerusalem" (fun i => !(i == 1))).appStep = .REVIEW ∧
          (handleAddShiftsToCalendar3 .REVIEW none (some "primary") selectedShifts
              "Asia/Jerusalem" (fun i => !(i == 1))).errorMsg.isSome = true) :=
  c3_batch_all_or_nothing .REVIEW none "primary" "Asia/Jerusalem" selectedShifts
    selectedShifts (fun i => !(i == 1)) (by decide) (List.cons_ne_nil _ _)

/-- C10: in the `forceAdd` app variant with the flag off, the insert batch
is exactly the extracted shifts whose `isConflicting` is not truthy, in
their original order; if every extracted shift conflicts, the writer sets
an error and returns to review without issuing any insert. -/
theorem c10_force_off_filters_conflicts (prevStep : AppStep) (prevError : Option String)
    (calId tz : String) (extractedShifts keep : List Shift) (ok : Nat → Bool)
    (hkeep : extractedShifts.filter (fun s => !(truthy s.isConflicting)) = keep)
    (hne : extractedShifts ≠ []) :
    (keep ≠ [] →
      (handleAddShiftsToCalendarA prevStep prevError (some calId) true extractedShifts
          false tz ok).requests =
        keep.map fun s => CalRequest.insert (toEventPayload tz s)) ∧
    (keep = [] →
      (handleAddShiftsToCalendarA prevStep prevError (some calId) true extractedShifts
          false tz ok).appStep = .REVIEW ∧
        (handleAddShiftsToCalendarA prevStep prevError (some calId) true extractedShifts
            false tz ok).errorMsg =
          some "No shifts to add. All found shifts have conflicts." ∧
        (handleAddShiftsToCalendarA prevStep prevError (some calId) true extractedShifts
            false tz ok).requests = []) := by
  have hred : handleAddShiftsToCalendarA prevStep prevError (some calId) true extractedShifts
      false tz ok =
      (if keep.length == 0 then
        { appStep := .REVIEW,
          errorMsg := some "No shifts to add. All found shifts have conflicts.",
          requests := [] }
      else if (List.range keep.length).all ok then
        { appStep := .DONE, errorMsg := none,
          requests := keep.map fun s => CalRequest.insert (toEventPayload tz s) }
      else
        { appStep := .REVIEW, errorMsg := some "Failed to add events: Unknown error",
          requests := keep.map fun s => CalRequest.insert (toEventPayload tz s) }) := by
    unfold handleAddShiftsToCalendarA
    rw [if_neg (by simp [List.length_eq_zero, hne] :
      ¬ (((some calId : Option String).isNone || (extractedShifts.length == 0) || !true) = true))]
    dsimp only
    rw [if_neg Bool.false_ne_true, hkeep]
  constructor
  · intro hkne
    rw [hred, if_neg (by simp [List.length_eq_zero, hkne] : ¬ ((keep.length == 0) = true))]
    by_cases hall : (List.range keep.length).all ok = true
    · rw [if_pos hall]
    · rw [if_neg hall]
  · intro hkeq
    subst hkeq
    rw [hred, if_pos (by simp)]
    exact ⟨rfl, rfl, rfl⟩

/-- A non-conflicting extracted shift for the `forceAdd` variant. -/
def freeShiftA : Shift :=
  { date := "2025-08-18", startTime := "15:30", endTime := "22:00",
    location := "ASICS", dayOfWeek := "שני", isConflicting := some false }

/-- A conflicting extracted shift for the `forceAdd` variant. -/
def conflictShiftA : Shift :=
  { date := "2025-08-19", startTime := "09:00", endTime := "16:00",
    location := "ORIGINALS", dayOfWeek := "שלישי", isConflicting := some true }

/-- Witness for C10: with the flag off, of one conflicting and one free
shift only the free one is inserted. -/
theorem c10_force_off_filters_conflicts_witness :
    (([freeShiftA] : List Shift) ≠ [] →
      (handleAddShiftsToCalendarA .REVIEW none (some "primary") true
          [conflictShiftA, freeShiftA] false "Asia/Jerusalem" (fun _ => true)).requests =
        ([freeShiftA] : List Shift).map fun s =>
          CalRequest.insert (toEventPayload "Asia/Jerusalem" s)) ∧
    (([freeShiftA] : List Shift) = [] →
      (handleAddShiftsToCalendarA .REVIEW none (some "primary") true
          [conflictShiftA, freeShiftA] false "Asia/Jerusalem" (fun _ => true)).appStep = .REVIEW ∧
        (handleAddShiftsToCalendarA .REVIEW none (some "primary") true
            [conflictShiftA, freeShiftA] false "Asia/Jerusalem" (fun _ => true)).errorMsg =
          some "No shifts to add. All found shifts have conflicts." ∧
        (handleAddShiftsToCalendarA .REVIEW none (some "primary") true
            [conflictShiftA, freeShiftA] false "Asia/Jerusalem" (fun _ => true)).requests = []) :=
  c10_force_off_filters_conflicts .REVIEW none "primary" "Asia/Jerusalem"
    [conflictShiftA, freeShiftA] [freeShiftA] (fun _ => true) (by decide)
    (List.cons_ne_nil _ _)
